import Mathlib

/-!
Verification development for the `trejder` trading bot backend.

The definitions below are a shallow embedding of the Python sources
`backend/services/ai_analysis.py` (class `AITradingAnalysis`) and
`backend/services/mexc_websocket.py` (class `MexcWebSocketService`).

Modelling conventions:
* Python floats are modelled as exact rationals (`ℚ`); float arithmetic is
  treated as exact real arithmetic.
* A pandas value that can be NaN (missing data produced by `diff`/`rolling`)
  is modelled as `Option ℚ` with `none` standing for NaN; the sources only
  ever consume such values through `pd.isna` fallbacks or comparisons
  (every comparison with NaN is false), and each consumption point is
  modelled case by case.
* Values of the form `a + b·√r` (standard deviations scaled into Bollinger
  bands, annualized volatility, the fear/greed blend) are kept symbolically
  in the `QSqrt` structure so that every comparison the source performs on
  them is computed exactly.
* Stateful Python code (the analysis history, the websocket service) is
  modelled by explicit state-passing functions.
-/

namespace Trejder

/-! ## Generic list and series helpers -/

/-- A pandas series of floats: `none` models NaN. -/
abbrev SeriesQ := List (Option ℚ)

/-- Arithmetic mean of a list of rationals (callers guarantee nonempty). -/
def qmean (xs : List ℚ) : ℚ := xs.sum / xs.length

/-- Minimum of a nonempty list (callers guarantee nonempty; 0 otherwise). -/
def listMin : List ℚ → ℚ
  | [] => 0
  | x :: xs => xs.foldl min x

/-- Maximum of a nonempty list (callers guarantee nonempty; 0 otherwise). -/
def listMax : List ℚ → ℚ
  | [] => 0
  | x :: xs => xs.foldl max x

/-- `min` of a possibly empty list, as in Python `min(xs, default=None)`. -/
def listMinD : List ℚ → Option ℚ
  | [] => none
  | x :: xs => some (xs.foldl min x)

/-- `max` of a possibly empty list, as in Python `max(xs, default=None)`. -/
def listMaxD : List ℚ → Option ℚ
  | [] => none
  | x :: xs => some (xs.foldl max x)

/-- Python's `xs[-n:]`: the suffix of the last `n` elements. -/
def lastN (n : ℕ) (xs : List α) : List α := xs.drop (xs.length - n)

/-- `s.rolling(w).f()` over a series: entry `i` is `f` of the window
ending at `i` when the window is full and NaN-free, NaN otherwise
(pandas `min_periods` defaults to the window size, and a NaN inside a
window poisons the aggregate). -/
def rollingMap (w : ℕ) (f : List ℚ → ℚ) (s : SeriesQ) : SeriesQ :=
  (List.range s.length).map (fun i =>
    if w ≤ i + 1 then
      let win := (s.take (i + 1)).drop (i + 1 - w)
      if win.all Option.isSome then some (f (win.filterMap id)) else none
    else none)

/-- Rolling over a NaN-free list of floats. -/
def rollingQ (w : ℕ) (f : List ℚ → ℚ) (xs : List ℚ) : SeriesQ :=
  rollingMap w f (xs.map some)

/-- `series.iloc[-1]` of a possibly-NaN series, as an `Option`. -/
def lastVal (s : SeriesQ) : Option ℚ := s.getLast?.join

/-- `series.diff()`: NaN at index 0, consecutive differences after. -/
def diffS (xs : List ℚ) : SeriesQ :=
  match xs with
  | [] => []
  | _ :: tl => none :: (List.zipWith (fun a b => some (b - a)) xs tl)

/-- `series.pct_change()`: NaN at index 0, `x_i / x_{i-1} - 1` after.
A zero previous value gives ±inf (or NaN) under IEEE; we model that
degenerate case as NaN as well (it only arises for zero prices). -/
def pctChange (xs : List ℚ) : SeriesQ :=
  match xs with
  | [] => []
  | _ :: tl => none ::
      (List.zipWith (fun a b => if a = 0 then none else some (b / a - 1)) xs tl)

/-- `series.ewm(adjust=True).mean()` with smoothing factor `α`:
`y_i = (Σ_{j≤i} (1-α)^{i-j} x_j) / (Σ_{j≤i} (1-α)^{i-j})`,
computed by the standard recurrence on (numerator, denominator). -/
def ewmSeries (a : ℚ) (xs : List ℚ) : List ℚ :=
  go 0 0 xs
where
  go (num den : ℚ) : List ℚ → List ℚ
    | [] => []
    | x :: tl =>
      let num' := (1 - a) * num + x
      let den' := (1 - a) * den + 1
      num' / den' :: go num' den' tl

/-- Last value of an `ewm(...).mean()` series; the sources only call this
on nonempty series (`iloc[-1]` would raise otherwise). -/
def ewmLast (a : ℚ) (xs : List ℚ) : ℚ := (ewmSeries a xs).getLast?.getD 0

/-- Sample variance with `ddof=1` (the pandas `std` default), i.e.
`Σ (x - mean)² / (n - 1)`; the square of the standard deviation. -/
def sampleVar (xs : List ℚ) : ℚ :=
  (xs.map (fun x => (x - qmean xs) ^ 2)).sum / ((xs.length : ℚ) - 1)

/-- Mean absolute deviation `mean(|x - mean(x)|)` (used by CCI). -/
def meanAbsDev (xs : List ℚ) : ℚ := qmean (xs.map (fun x => |x - qmean xs|))

/-! ## Exact comparisons for values of the form `a + b·√r`

`QSqrt` represents `a + b·√r` (with `r ≥ 0` at every construction site).
Comparisons against rationals are decided exactly by sign analysis and
squaring, matching real-number semantics of the source's float values. -/

structure QSqrt where
  a : ℚ
  b : ℚ
  r : ℚ
  deriving DecidableEq, Repr

/-- Decide `b·√r < t` exactly (`r ≥ 0` assumed). -/
def sqrtPartLt (b r t : ℚ) : Bool :=
  if 0 ≤ b then 0 < t ∧ b ^ 2 * r < t ^ 2
  else 0 < t ∨ t ^ 2 < b ^ 2 * r

/-- Decide `a + b·√r < c`. -/
def QSqrt.ltRat (x : QSqrt) (c : ℚ) : Bool := sqrtPartLt x.b x.r (c - x.a)

/-- Decide `c < a + b·√r`. -/
def QSqrt.gtRat (x : QSqrt) (c : ℚ) : Bool := sqrtPartLt (-x.b) x.r (x.a - c)

/-- Embed a rational as a `QSqrt`. -/
def QSqrt.ofRat (q : ℚ) : QSqrt := ⟨q, 0, 0⟩

/-! ## Candle model -/

/-- One kline row `[timestamp, open, high, low, close, volume]`
(`AITradingAnalysis._klines_to_dataframe`). -/
structure Kline where
  ts : ℤ
  o : ℚ
  h : ℚ
  l : ℚ
  c : ℚ
  v : ℚ
  deriving DecidableEq, Repr

/-- `_klines_to_dataframe`: sort rows by timestamp.  (pandas
`sort_values` is not stability-guaranteed; differences arise only for
duplicate timestamps.) -/
def klinesToDataframe (klines : List Kline) : List Kline :=
  klines.insertionSort (fun a b => a.ts ≤ b.ts)

/-! ## Analysis history (bounded FIFO) -/

/-- `analyze_market` history update (`ai_analysis.py` lines 62-65):
append, then `pop(0)` once if the length exceeds 100. -/
def pushHistory (h : List α) (x : α) : List α :=
  let h' := h ++ [x]
  if 100 < h'.length then h'.drop 1 else h'

/-- `get_analysis_history`: the last 20 entries (`self.analysis_history[-20:]`). -/
def getAnalysisHistory (h : List α) : List α := lastN 20 h

/-! ## Stream client: fallback trade polling (`_poll_trades`)

Only trade ids matter for the de-duplication logic; a poll iteration is
modelled by the list of ids the REST endpoint returned, and the handler
invocations by the list of ids emitted. -/

/-- One poll iteration of `_poll_trades`: walk the fetched trades in
order; emit a trade (and update `last_trade_id`) iff no id was recorded
yet or its id is strictly greater than the recorded one.  Returns the
emitted ids and the updated `last_trade_id`. -/
def pollBatch : Option ℤ → List ℤ → List ℤ × Option ℤ
  | last, [] => ([], last)
  | none, t :: ts =>
      let rest := pollBatch (some t) ts
      (t :: rest.1, rest.2)
  | some l, t :: ts =>
      if l < t then
        let rest := pollBatch (some t) ts
        (t :: rest.1, rest.2)
      else pollBatch (some l) ts

/-- Several consecutive poll iterations, threading `last_trade_id`;
returns all ids emitted to the handler, in order. -/
def pollRun (last : Option ℤ) : List (List ℤ) → List ℤ
  | [] => []
  | b :: bs =>
      let step := pollBatch last b
      step.1 ++ pollRun step.2 bs

/-! ## Stream client: fallback transition (`_listen` / `_start_fallback_polling`) -/

/-- Substring test (Python's `needle in haystack` on `str`). -/
def containsSub (needle hay : List Char) : Bool :=
  needle.isPrefixOf hay ||
    match hay with
    | [] => false
    | _ :: tl => containsSub needle tl

/-- Python `"sub" in s`. -/
def strContains (needle hay : String) : Bool := containsSub needle.data hay.data

/-- The kind of polling loop started for a channel. -/
inductive PollKind
  | ticker
  | trade
  deriving DecidableEq, Repr

/-- Insert-or-replace into an association list, with Python `dict`
assignment semantics: replacing keeps the key's position, a new key is
appended at the end. -/
def dictInsert : List (String × β) → String → β → List (String × β)
  | [], k, v => [(k, v)]
  | (k', v') :: tl, k, v =>
      if k' = k then (k, v) :: tl else (k', v') :: dictInsert tl k v

/-- The mutable state of `MexcWebSocketService` that the fallback
transition touches.  Handlers are opaque (modelled by `ℕ` tags);
`callbacks` and `pollingTasks` are insertion-ordered dicts keyed by
stream name. -/
structure WSState where
  callbacks : List (String × ℕ)
  pollingTasks : List (String × PollKind)
  fallbackMode : Bool
  isConnected : Bool
  deriving DecidableEq, Repr

/-- `_start_fallback_polling`: for each registered callback, start a
ticker polling task if the stream name contains `"@ticker"`, else a
trade polling task if it contains `"@trade"`; other channels (klines,
depth) get no polling task. -/
def startFallbackPolling (tasks : List (String × PollKind)) :
    List (String × ℕ) → List (String × PollKind)
  | [] => tasks
  | (name, _) :: rest =>
      if strContains "@ticker" name then
        startFallbackPolling (dictInsert tasks name .ticker) rest
      else if strContains "@trade" name then
        startFallbackPolling (dictInsert tasks name .trade) rest
      else
        startFallbackPolling tasks rest

/-- The `except` branches of `_listen` (connection closed / read error):
set `fallback_mode = True` and run `_start_fallback_polling`. -/
def onTransportError (st : WSState) : WSState :=
  { st with
    fallbackMode := true
    pollingTasks := startFallbackPolling st.pollingTasks st.callbacks }

/-! ## Indicator library (`AITradingAnalysis._calculate_*`) -/

/-- `ewm(span=s)` smoothing factor `α = 2/(s+1)`. -/
def spanAlpha (span : ℕ) : ℚ := 2 / ((span : ℚ) + 1)

/-- The per-index gain series of `_calculate_rsi`:
`delta.where(delta > 0, 0)`.  The NaN produced by `diff()` at index 0
fails the `> 0` test and becomes 0. -/
def rsiGains (prices : List ℚ) : List ℚ :=
  match prices with
  | [] => []
  | _ :: tl => 0 :: List.zipWith (fun a b => max (b - a) 0) prices tl

/-- The per-index loss series of `_calculate_rsi`:
`-delta.where(delta < 0, 0)`. -/
def rsiLosses (prices : List ℚ) : List ℚ :=
  match prices with
  | [] => []
  | _ :: tl => 0 :: List.zipWith (fun a b => max (a - b) 0) prices tl

/-- `_calculate_rsi`: rolling means of gains and losses, then
`100 - 100/(1 + gain/loss)` on the last entry, with `pd.isna` fallback 50.
Zero-loss cases follow IEEE: `0/0` is NaN (fallback 50) and `g/0` for
`g > 0` is `+inf`, for which the formula collapses to 100. -/
def rsiLast (prices : List ℚ) (period : ℕ) : ℚ :=
  match lastVal (rollingQ period qmean (rsiGains prices)),
        lastVal (rollingQ period qmean (rsiLosses prices)) with
  | some g, some l =>
      if l = 0 then (if g = 0 then 50 else 100)
      else 100 - 100 / (1 + g / l)
  | _, _ => 50

/-- `_calculate_macd` (fast 12, slow 26, signal 9): returns
`(macd_line, signal_line, histogram)` at the last index.  The `pd.isna`
fallbacks to 0 never fire on a nonempty numeric window; the `getD 0`
mirrors them (the source would raise `IndexError` on an empty window,
which call sites exclude). -/
def macdLast (prices : List ℚ) : ℚ × ℚ × ℚ :=
  let macdLine := List.zipWith (· - ·)
    (ewmSeries (spanAlpha 12) prices) (ewmSeries (spanAlpha 26) prices)
  let signalLine := ewmSeries (spanAlpha 9) macdLine
  let histogram := List.zipWith (· - ·) macdLine signalLine
  (macdLine.getLast?.getD 0, signalLine.getLast?.getD 0, histogram.getLast?.getD 0)

/-- `_calculate_bollinger_bands` (period 20, 2σ): `(upper, middle, lower)`
with `upper/lower = sma ± std·2` kept symbolically; on NaN (short window)
all three fall back to the last close. -/
def bollingerBands (prices : List ℚ) (period : ℕ) (stdDev : ℚ) : QSqrt × ℚ × QSqrt :=
  match lastVal (rollingQ period qmean prices), lastVal (rollingQ period sampleVar prices) with
  | some m, some v => (⟨m, stdDev, v⟩, m, ⟨m, -stdDev, v⟩)
  | _, _ =>
      let c := prices.getLast?.getD 0
      (QSqrt.ofRat c, c, QSqrt.ofRat c)

/-- Position flag of `_get_bb_position`. -/
inductive BBPosition
  | aboveUpper
  | belowLower
  | withinBands
  deriving DecidableEq, Repr

/-- `_get_bb_position`. -/
def getBBPosition (price : ℚ) (upper lower : QSqrt) : BBPosition :=
  if upper.ltRat price then .aboveUpper
  else if lower.gtRat price then .belowLower
  else .withinBands

/-- `_calculate_stochastic`: `100·(close - low_min)/(high_max - low_min)`
on the last entry; NaN (short window) → 50.  `high_max = low_min` forces
`close = low_min` for invariant-respecting candles, giving `0/0` = NaN →
50 (for invariant-violating data IEEE would give ±inf instead). -/
def stochasticLast (df : List Kline) (period : ℕ) : ℚ :=
  match lastVal (rollingQ period listMin (df.map (·.l))),
        lastVal (rollingQ period listMax (df.map (·.h))) with
  | some lo, some hi =>
      if hi = lo then 50
      else 100 * (((df.map (·.c)).getLast?.getD 0 - lo) / (hi - lo))
  | _, _ => 50

/-- `_calculate_williams_r`: `-100·(high_max - close)/(high_max - low_min)`
on the last entry; NaN → -50 (same degenerate-window remark as the
stochastic). -/
def williamsRLast (df : List Kline) (period : ℕ) : ℚ :=
  match lastVal (rollingQ period listMax (df.map (·.h))),
        lastVal (rollingQ period listMin (df.map (·.l))) with
  | some hi, some lo =>
      if hi = lo then -50
      else -100 * ((hi - (df.map (·.c)).getLast?.getD 0) / (hi - lo))
  | _, _ => -50

/-- `_calculate_cci` (period 20).  A zero mean absolute deviation forces a
constant window, so the numerator is 0 as well and `0/0` = NaN → 0. -/
def cciLast (df : List Kline) (period : ℕ) : ℚ :=
  let tp := df.map (fun k => (k.h + k.l + k.c) / 3)
  match lastVal (rollingQ period qmean tp), lastVal (rollingQ period meanAbsDev tp) with
  | some smaTp, some mad =>
      if mad = 0 then 0
      else (tp.getLast?.getD 0 - smaTp) / (3/200 * mad)
  | _, _ => 0

/-- `_calculate_roc` (period 12): `(p - p.shift(12))/p.shift(12)·100` on
the last entry; NaN (short window) → 0.  A zero base price gives ±inf (or
NaN) under IEEE; modelled as the NaN default. -/
def rocLast (prices : List ℚ) (period : ℕ) : ℚ :=
  if prices.length ≤ period then 0
  else
    let p0 := prices.getD (prices.length - 1 - period) 0
    if p0 = 0 then 0
    else (prices.getLast?.getD 0 - p0) / p0 * 100

/-- `_calculate_momentum` (period 10): `p - p.shift(10)` on the last
entry; NaN → 0. -/
def momentumLast (prices : List ℚ) (period : ℕ) : ℚ :=
  if prices.length ≤ period then 0
  else prices.getLast?.getD 0 - prices.getD (prices.length - 1 - period) 0

/-- True-range series of `_calculate_atr`: index 0 is NaN
(`close.shift()` is NaN there and `np.maximum` propagates it), after that
`max(high-low, |high-prev_close|, |low-prev_close|)`. -/
def trueRange (df : List Kline) : SeriesQ :=
  match df with
  | [] => []
  | _ :: tl => none :: List.zipWith (fun prev cur =>
      some (max (cur.h - cur.l) (max |cur.h - prev.c| |cur.l - prev.c|))) df tl

/-- `_calculate_atr` (period 14): rolling mean of the true range, NaN → 0. -/
def atrLast (df : List Kline) (period : ℕ) : ℚ :=
  (lastVal (rollingMap period qmean (trueRange df))).getD 0

/-- The rolling sample variance feeding `_calculate_volatility`. -/
def volatilityVar (prices : List ℚ) (period : ℕ) : Option ℚ :=
  lastVal (rollingMap period sampleVar (pctChange prices))

/-- `_calculate_volatility` (period 20): `std(returns)·√252 = √(252·var)`,
kept symbolically; NaN → 0. -/
def volatilityLast (prices : List ℚ) (period : ℕ) : QSqrt :=
  match volatilityVar prices period with
  | some v => ⟨0, 1, 252 * v⟩
  | none => QSqrt.ofRat 0

/-- `plus_dm` of `_calculate_adx`: the NaN diffs at index 0 fail both
comparisons in `np.where` and become 0. -/
def plusDmList (df : List Kline) : List ℚ :=
  match df with
  | [] => []
  | _ :: tl => 0 :: List.zipWith (fun prev cur =>
      let hd := cur.h - prev.h
      let ld := cur.l - prev.l
      if hd > ld ∧ hd > 0 then hd else 0) df tl

/-- `minus_dm` of `_calculate_adx`. -/
def minusDmList (df : List Kline) : List ℚ :=
  match df with
  | [] => []
  | _ :: tl => 0 :: List.zipWith (fun prev cur =>
      let hd := cur.h - prev.h
      let ld := cur.l - prev.l
      if ld > hd ∧ ld > 0 then ld else 0) df tl

/-- `_calculate_adx` (period 14).  `dx` is NaN where `plus_di + minus_di`
is 0 (both are 0 there, so `0/0`); a NaN inside the final rolling window
poisons the ADX, which then falls back to 0. -/
def adxLast (df : List Kline) (period : ℕ) : ℚ :=
  let atr := atrLast df period
  if atr = 0 then 0
  else
    let plusDi := (rollingQ period qmean (plusDmList df)).map
      (Option.map (fun x => 100 * (x / atr)))
    let minusDi := (rollingQ period qmean (minusDmList df)).map
      (Option.map (fun x => 100 * (x / atr)))
    let dx := List.zipWith (fun p? m? =>
      match p?, m? with
      | some p, some m => if p + m = 0 then none else some (100 * |p - m| / (p + m))
      | _, _ => none) plusDi minusDi
    (lastVal (rollingMap period qmean dx)).getD 0

/-- Aroon up/down/oscillator triple. -/
structure AroonVal where
  up : ℚ
  down : ℚ
  osc : ℚ
  deriving DecidableEq, Repr

/-- First position of the maximum (pandas `idxmax` keeps the first
occurrence). -/
def firstArgmax (xs : List ℚ) : ℕ :=
  (List.range xs.length).foldl
    (fun best i => if xs.getD i 0 > xs.getD best 0 then i else best) 0

/-- First position of the minimum (pandas `idxmin`). -/
def firstArgmin (xs : List ℚ) : ℕ :=
  (List.range xs.length).foldl
    (fun best i => if xs.getD i 0 < xs.getD best 0 then i else best) 0

/-- `_calculate_aroon` (period 14).  For `len(df) ≤ period` the loop body
never runs and the 50/50/0 defaults are returned.  Otherwise only the
last loop iteration (`i = len-1`) matters: the window is the last
`period+1` rows and `periods_since_x = i - (position of the first
extremum inside the window)`, exactly as the source's
`index.get_loc(idxmax)` computes it. -/
def aroonLast (df : List Kline) (period : ℕ) : AroonVal :=
  if df.length ≤ period then ⟨50, 50, 0⟩
  else
    let i := df.length - 1
    let win := lastN (period + 1) df
    let posH := firstArgmax (win.map (·.h))
    let posL := firstArgmin (win.map (·.l))
    let up : ℚ := ((period : ℚ) - ((i : ℚ) - posH)) / period * 100
    let down : ℚ := ((period : ℚ) - ((i : ℚ) - posL)) / period * 100
    ⟨up, down, up - down⟩

/-- `_calculate_obv`: cumulative signed volume; the last entry is the sum
of the per-step contributions. -/
def obvLast (df : List Kline) : ℚ :=
  (List.zipWith (fun prev cur =>
    if cur.c > prev.c then cur.v
    else if cur.c < prev.c then -cur.v
    else 0) df df.tail).sum

/-- `_calculate_mfi` (period 14): rolling sums of positive/negative money
flow over the step list (length `n-1`), zero negative flow replaced by 1,
NaN → 50. -/
def mfiLast (df : List Kline) (period : ℕ) : ℚ :=
  let tp := df.map (fun k => (k.h + k.l + k.c) / 3)
  let mf := List.zipWith (· * ·) tp (df.map (·.v))
  let posFlow := List.zipWith (fun pr m => if pr.2 > pr.1 then m else 0) (tp.zip tp.tail) mf.tail
  let negFlow := List.zipWith (fun pr m => if pr.2 < pr.1 then m else 0) (tp.zip tp.tail) mf.tail
  match lastVal (rollingQ period List.sum posFlow),
        lastVal (rollingQ period List.sum negFlow) with
  | some p, some n =>
      let n' := if n = 0 then 1 else n
      100 - 100 / (1 + p / n')
  | _, _ => 50

/-- `_calculate_vwap`: cumulative `typical·volume / volume` at the last
index.  A zero total volume makes both sums 0 for nonnegative volumes
(`0/0` = NaN → last close); mixed-sign volumes would give ±inf under
IEEE instead. -/
def vwapLast (df : List Kline) : ℚ :=
  let tp := df.map (fun k => (k.h + k.l + k.c) / 3)
  let num := (List.zipWith (· * ·) tp (df.map (·.v))).sum
  let den := (df.map (·.v)).sum
  if den = 0 then (df.map (·.c)).getLast?.getD 0
  else num / den

/-- Classic pivot points of `_calculate_pivot_points`. -/
structure PivotVal where
  pivot : ℚ
  r1 : ℚ
  r2 : ℚ
  s1 : ℚ
  s2 : ℚ
  deriving DecidableEq, Repr

/-- `_calculate_pivot_points`: empty for fewer than 2 rows, else derived
from the second-to-last candle. -/
def pivotPointsLast (df : List Kline) : Option PivotVal :=
  if df.length < 2 then none
  else
    let prev := df.getD (df.length - 2) ⟨0, 0, 0, 0, 0, 0⟩
    let p := (prev.h + prev.l + prev.c) / 3
    some ⟨p, 2 * p - prev.l, p + (prev.h - prev.l), 2 * p - prev.h, p - (prev.h - prev.l)⟩

/-- Fibonacci retracement levels of `_calculate_fibonacci_retracements`. -/
structure FibVal where
  high : ℚ
  low : ℚ
  f236 : ℚ
  f382 : ℚ
  f500 : ℚ
  f618 : ℚ
  f786 : ℚ
  deriving DecidableEq, Repr

/-- `_calculate_fibonacci_retracements`: empty for fewer than 20 rows,
else standard retracements of the last-20 high/low range. -/
def fibonacciLast (df : List Kline) : Option FibVal :=
  if df.length < 20 then none
  else
    let recent := lastN 20 df
    let hi := listMax (recent.map (·.h))
    let lo := listMin (recent.map (·.l))
    let d := hi - lo
    some ⟨hi, lo, hi - 236/1000 * d, hi - 382/1000 * d, hi - 1/2 * d,
          hi - 618/1000 * d, hi - 786/1000 * d⟩

/-- `min(max(x, 0), 100)`. -/
def clamp0100 (x : ℚ) : ℚ := min (max x 0) 100

/-- `_calculate_fear_greed_index`: 50 below 20 rows, else the
equal-weight blend of the four component scores.  The volatility score
`clamp(100 - 1000·std)` is rational unless `0 < var < 1/100`, in which
case the blend is kept as `(rest + 100 - 1000·√var)/4`.  The zero-divisor
degeneracies (a zero `close[-10]`, a zero 20-period average volume) give
±inf under IEEE and are modelled by a 0 component. -/
def fearGreedLast (df : List Kline) : QSqrt :=
  if df.length < 20 then QSqrt.ofRat 50
  else
    let closes := df.map (·.c)
    let c10 := closes.getD (closes.length - 10) 0
    let priceChange := if c10 = 0 then 0 else (closes.getLast?.getD 0 - c10) / c10
    let momentumScore := clamp0100 (priceChange * 100 + 50)
    let vals := (lastN 10 (pctChange closes)).filterMap id
    let v := sampleVar vals
    let avgVol := qmean (lastN 20 (df.map (·.v)))
    let curVol := (df.map (·.v)).getLast?.getD 0
    let volumeScore := clamp0100 ((if avgVol = 0 then 0 else curVol / avgVol) * 50)
    let rsiScore := rsiLast closes 14
    let sRat := momentumScore + volumeScore + rsiScore
    if v = 0 then QSqrt.ofRat ((sRat + 100) / 4)
    else if v ≥ 1/100 then QSqrt.ofRat (sRat / 4)
    else ⟨(sRat + 100) / 4, -250, v⟩

/-- Bull/bear power of `_calculate_bull_bear_power`. -/
structure BullBear where
  bull : ℚ
  bear : ℚ
  balance : ℚ
  deriving DecidableEq, Repr

/-- `_calculate_bull_bear_power`: last high/low minus EMA(13). -/
def bullBearPowerLast (df : List Kline) : BullBear :=
  let ema13 := ewmLast (spanAlpha 13) (df.map (·.c))
  let bull := (df.map (·.h)).getLast?.getD 0 - ema13
  let bear := (df.map (·.l)).getLast?.getD 0 - ema13
  ⟨bull, bear, bull + bear⟩

/-! ## Support / resistance levels (`_find_resistance_levels`, `_find_support_levels`) -/

/-- The local-maxima collection loop of `_find_resistance_levels`:
`highs[i]` strictly above both one-step and two-step neighbours, for
`i ∈ range(2, len-2)`. -/
def localMaxima (highs : List ℚ) : List ℚ :=
  (List.range highs.length).filterMap (fun i =>
    if 2 ≤ i ∧ i + 2 < highs.length ∧
        highs.getD i 0 > highs.getD (i - 1) 0 ∧ highs.getD i 0 > highs.getD (i + 1) 0 ∧
        highs.getD i 0 > highs.getD (i - 2) 0 ∧ highs.getD i 0 > highs.getD (i + 2) 0
    then some (highs.getD i 0) else none)

/-- The local-minima collection loop of `_find_support_levels`. -/
def localMinima (lows : List ℚ) : List ℚ :=
  (List.range lows.length).filterMap (fun i =>
    if 2 ≤ i ∧ i + 2 < lows.length ∧
        lows.getD i 0 < lows.getD (i - 1) 0 ∧ lows.getD i 0 < lows.getD (i + 1) 0 ∧
        lows.getD i 0 < lows.getD (i - 2) 0 ∧ lows.getD i 0 < lows.getD (i + 2) 0
    then some (lows.getD i 0) else none)

/-- `abs(level - existing) / existing < 0.005`.  For `existing = 0` the
IEEE quotient is `+inf` (duplicates were removed, so `level ≠ existing`),
never below the threshold — hence the guard.  For `existing < 0` the
quotient is nonpositive and the test holds, exactly as in `ℚ`. -/
def closeLevel (level existing : ℚ) : Bool :=
  existing ≠ 0 && |level - existing| / existing < 1/200

/-- The filtering loop shared by both level finders: walk the candidates
in order, keep one iff it is not `closeLevel` to any already-kept one. -/
def greedyFilterGo (kept : List ℚ) : List ℚ → List ℚ
  | [] => kept
  | x :: xs =>
      if kept.any (fun e => closeLevel x e) then greedyFilterGo kept xs
      else greedyFilterGo (kept ++ [x]) xs

/-- `filtered_levels` built from an empty accumulator. -/
def greedyFilter (cands : List ℚ) : List ℚ := greedyFilterGo [] cands

/-- Python `sorted(set(xs))`: distinct values in ascending order. -/
def sortedSet (xs : List ℚ) : List ℚ := (xs.dedup).insertionSort (· ≤ ·)

/-- `_find_resistance_levels` (the `closes` argument is unused in the
source as well): collect local maxima, sort-deduplicate, drop levels
within 0.5% of an already-kept one, return `sorted(...)[-5:]`. -/
def findResistanceLevels (highs closes : List ℚ) : List ℚ :=
  lastN 5 ((greedyFilter (sortedSet (localMaxima highs))).insertionSort (· ≤ ·))

/-- `_find_support_levels`. -/
def findSupportLevels (lows closes : List ℚ) : List ℚ :=
  lastN 5 ((greedyFilter (sortedSet (localMinima lows))).insertionSort (· ≤ ·))

/-- Output of `_detect_support_resistance`. -/
structure SupportResistance where
  resistanceLevels : List ℚ
  supportLevels : List ℚ
  nearestResistance : Option ℚ
  nearestSupport : Option ℚ
  distanceToResistance : Option ℚ
  distanceToSupport : Option ℚ
  deriving DecidableEq, Repr

/-- `_detect_support_resistance`.  The distances use Python truthiness:
they are `None` when the nearest level is `None` or exactly `0.0`.  A
zero last close would give ±inf distances under IEEE (modelled by the
exact quotient, which no caller distinguishes). -/
def detectSupportResistance (df : List Kline) : SupportResistance :=
  let res := findResistanceLevels (df.map (·.h)) (df.map (·.c))
  let sup := findSupportLevels (df.map (·.l)) (df.map (·.c))
  let cp := (df.map (·.c)).getLast?.getD 0
  let nr := listMinD (res.filter (fun r => cp < r))
  let ns := listMaxD (sup.filter (fun s => s < cp))
  { resistanceLevels := res
    supportLevels := sup
    nearestResistance := nr
    nearestSupport := ns
    distanceToResistance :=
      match nr with
      | some r => if r = 0 then none else some ((r - cp) / cp * 100)
      | none => none
    distanceToSupport :=
      match ns with
      | some s => if s = 0 then none else some ((cp - s) / cp * 100)
      | none => none }

/-! ## Pattern detection (`_detect_*`) -/

/-- Trend classification of `_detect_trend`. -/
inductive TrendKind
  | uptrend
  | downtrend
  | sideways
  | insufficientData
  deriving DecidableEq, Repr

/-- `np.polyfit(x, y, 1)[0]` for `x = 0..n-1`: the least-squares slope
`Σ(x-x̄)(y-ȳ) / Σ(x-x̄)²`. -/
def polyfitSlope (ys : List ℚ) : ℚ :=
  let xbar : ℚ := ((ys.length : ℚ) - 1) / 2
  let ybar := qmean ys
  let num := (List.zipWith (fun i y => ((i : ℚ) - xbar) * (y - ybar))
    (List.range ys.length) ys).sum
  let den := ((List.range ys.length).map (fun i => ((i : ℚ) - xbar) ^ 2)).sum
  num / den

/-- `_detect_trend`: slope of the last 20 closes against a ±0.1% of the
last close threshold. -/
def detectTrend (df : List Kline) : TrendKind :=
  let closes := lastN 20 (df.map (·.c))
  if closes.length < 10 then .insufficientData
  else
    let slope := polyfitSlope closes
    let lastC := closes.getLast?.getD 0
    if slope > lastC * (1/1000) then .uptrend
    else if slope < -lastC * (1/1000) then .downtrend
    else .sideways

/-- Candlestick flags of `_detect_candlestick_patterns`. -/
inductive CandlePattern
  | doji
  | hammer
  deriving DecidableEq, Repr

/-- `_detect_candlestick_patterns`: at most one DOJI flag from the last 3
candles (the source breaks after the first hit), then a HAMMER check on
the last candle. -/
def detectCandlestickPatterns (df : List Kline) : List CandlePattern :=
  if df.length < 3 then []
  else
    let last3 := lastN 3 df
    let doji : List CandlePattern :=
      if last3.any (fun r => |r.c - r.o| < (r.h - r.l) * (1/10)) then [.doji] else []
    let lc := df.getD (df.length - 1) ⟨0, 0, 0, 0, 0, 0⟩
    let body := |lc.c - lc.o|
    let lowerWick := min lc.o lc.c - lc.l
    let upperWick := lc.h - max lc.o lc.c
    doji ++ (if lowerWick > body * 2 ∧ upperWick < body * (1/2) then [.hammer] else [])

/-- Direction of a potential breakout. -/
inductive BreakoutDir
  | up
  | down
  deriving DecidableEq, Repr

/-- `_detect_breakout_potential` result (`{}` is `none`). -/
structure Breakout where
  direction : BreakoutDir
  probability : ℚ
  deriving DecidableEq, Repr

/-- `_detect_breakout_potential`: fires when the last close is within 1%
of the 10-candle high (UP) or low (DOWN).  For a zero last close the IEEE
distances are ±inf/NaN; the `< 0.01` test then holds only for a negative
numerator, which the zero-close branches reproduce exactly. -/
def detectBreakoutPotential (df : List Kline) : Option Breakout :=
  if df.length < 20 then none
  else
    let recentHigh := listMax (lastN 10 (df.map (·.h)))
    let recentLow := listMin (lastN 10 (df.map (·.l)))
    let cp := (df.map (·.c)).getLast?.getD 0
    let upFires := if cp = 0 then recentHigh < 0 else (recentHigh - cp) / cp < 1/100
    let downFires := if cp = 0 then 0 < recentLow else (cp - recentLow) / cp < 1/100
    if upFires then some ⟨.up, 7/10⟩
    else if downFires then some ⟨.down, 7/10⟩
    else none

/-- Divergence flags of `_detect_divergence` (`{}` is `none`; the
strength is always MODERATE in the source). -/
inductive DivergenceKind
  | bearishDivergence
  | bullishDivergence
  deriving DecidableEq, Repr

/-- `_detect_divergence`: RSI over every prefix from length 15 on, then
a sign comparison of the 10-step price and RSI deltas; requires ≥ 30
rows. -/
def detectDivergence (df : List Kline) : Option DivergenceKind :=
  if df.length < 30 then none
  else
    let closes := df.map (·.c)
    let rsiValues := ((List.range df.length).drop 14).map
      (fun i => rsiLast (closes.take (i + 1)) 14)
    if rsiValues.length < 10 then none
    else
      let t10 := lastN 10 closes
      let priceTrend := t10.getLast?.getD 0 - t10.head?.getD 0
      let r10 := lastN 10 rsiValues
      let rsiTrend := r10.getLast?.getD 0 - r10.head?.getD 0
      if priceTrend > 0 ∧ rsiTrend < 0 then some .bearishDivergence
      else if priceTrend < 0 ∧ rsiTrend > 0 then some .bullishDivergence
      else none

/-- Output of `_detect_patterns`. -/
structure Patterns where
  trend : TrendKind
  candlestickPatterns : List CandlePattern
  breakoutPotential : Option Breakout
  divergence : Option DivergenceKind
  deriving DecidableEq, Repr

/-- `_detect_patterns`. -/
def detectPatterns (df : List Kline) : Patterns :=
  ⟨detectTrend df, detectCandlestickPatterns df,
   detectBreakoutPotential df, detectDivergence df⟩

/-! ## Market structure (`_analyze_market_structure`) -/

/-- Structure classification. -/
inductive StructureKind
  | bullish
  | bearish
  | sideways
  deriving DecidableEq, Repr

/-- `sum(1 for i in range(1, len(xs)) if xs[i] > xs[i-1])`. -/
def countIncr (xs : List ℚ) : ℕ :=
  ((xs.zip xs.tail).countP (fun p => decide (p.1 < p.2)))

/-- Output of `_analyze_market_structure`. -/
structure MarketStructure where
  trendStructure : StructureKind
  structureScore : ℚ
  higherHighsRatt : ℚ
  higherLowsRatt : ℚ
  deriving DecidableEq, Repr

/-- `_analyze_market_structure`: counts of strictly increasing
consecutive highs/lows over the last 20 rows, the score
`(hh + hl)/(len - 1)`, and the 0.6/0.4 classification.  (For a single
row Python would raise `ZeroDivisionError`; the pipeline guarantees 50
rows.) -/
def analyzeMarketStructure (df : List Kline) : MarketStructure :=
  let highs := lastN 20 (df.map (·.h))
  let lows := lastN 20 (df.map (·.l))
  let hh := countIncr highs
  let hl := countIncr lows
  let score : ℚ := ((hh : ℚ) + hl) / ((highs.length : ℚ) - 1)
  { trendStructure :=
      if score > 3/5 then .bullish
      else if score < 2/5 then .bearish
      else .sideways
    structureScore := score
    higherHighsRatt := (hh : ℚ) / ((highs.length : ℚ) - 1)
    higherLowsRatt := (hl : ℚ) / ((lows.length : ℚ) - 1) }

/-! ## Volume analysis (`_analyze_volume`) -/

/-- Volume trend flag. -/
inductive VolTrend
  | increasing
  | decreasing
  deriving DecidableEq, Repr

/-- Volume bias flag. -/
inductive VolBias
  | bullish
  | bearish
  deriving DecidableEq, Repr

/-- Output of `_analyze_volume` (`volumeQuot` is the source's
`volume_ratio` entry). -/
structure VolumeAnalysis where
  volumeTrend : VolTrend
  volumeBias : VolBias
  avgVolume10 : ℚ
  currentVolume : ℚ
  volumeQuot : ℚ
  deriving DecidableEq, Repr

/-- `np.convolve(xs, ones(w)/w, 'valid')`: the moving `w`-average, of
length `n - w + 1` (the `n < w` case is unreachable from the pipeline). -/
def movingAvgValid (w : ℕ) (xs : List ℚ) : List ℚ :=
  (List.range (xs.length + 1 - w)).map (fun i => qmean ((xs.drop i).take w))

/-- `_analyze_volume`.  The NaN first entry of `pct_change` fails both
sign masks; indexing `volume_sma[-5]` assumes at least 14 rows (the
pipeline guarantees 50); the `volume[-1]/mean(volume[-20:])` quotient is
display-only (IEEE would give ±inf/NaN on a zero mean). -/
def analyzeVolume (df : List Kline) : VolumeAnalysis :=
  let volume := df.map (·.v)
  let priceChange := pctChange (df.map (·.c))
  let volumeSma := movingAvgValid 10 volume
  let vol10 := lastN 10 volume
  let pc10 := lastN 10 priceChange
  let positiveVolume : ℚ := (List.zipWith (fun v p? =>
    match p? with | some p => if p > 0 then v else 0 | none => 0) vol10 pc10).sum
  let negativeVolume : ℚ := (List.zipWith (fun v p? =>
    match p? with | some p => if p < 0 then v else 0 | none => 0) vol10 pc10).sum
  { volumeTrend :=
      if volumeSma.getD (volumeSma.length - 1) 0 > volumeSma.getD (volumeSma.length - 5) 0
      then .increasing else .decreasing
    volumeBias := if positiveVolume > negativeVolume then .bullish else .bearish
    avgVolume10 := qmean (lastN 10 volume)
    currentVolume := volume.getLast?.getD 0
    volumeQuot := volume.getLast?.getD 0 / qmean (lastN 20 volume) }

/-! ## Indicator set (`_calculate_all_indicators`) -/

/-- The MACD triple stored in the indicator dict. -/
structure MacdVal where
  line : ℚ
  signal : ℚ
  histogram : ℚ
  deriving DecidableEq, Repr

/-- The indicator dict built by `_calculate_all_indicators`.  `sma20`,
`sma50` and `volumeSma` are stored as the raw rolling results and can be
NaN (`none`); every comparison the decision code performs on a NaN is
false.  `volumeQuotInd` is the dict's `volume_ratio` entry
(display-only). -/
structure IndicatorSet where
  sma20 : Option ℚ
  sma50 : Option ℚ
  ema12 : ℚ
  ema26 : ℚ
  rsi : ℚ
  macd : MacdVal
  bbUpper : QSqrt
  bbMiddle : ℚ
  bbLower : QSqrt
  bbPosFlag : BBPosition
  stochastic : ℚ
  williamsR : ℚ
  volumeSma : Option ℚ
  volumeQuotInd : Option ℚ
  cci : ℚ
  roc : ℚ
  momentum : ℚ
  atr : ℚ
  volatility : QSqrt
  adx : ℚ
  aroon : AroonVal
  obv : ℚ
  mfi : ℚ
  vwap : ℚ
  pivotPoints : Option PivotVal
  fibLevels : Option FibVal
  fearGreed : QSqrt
  bullBearPower : BullBear
  deriving Repr

/-- `_calculate_all_indicators`. -/
def calcAllIndicators (df : List Kline) : IndicatorSet :=
  let closes := df.map (·.c)
  let vols := df.map (·.v)
  let bb := bollingerBands closes 20 2
  let volumeSma := lastVal (rollingQ 20 qmean vols)
  let m := macdLast closes
  { sma20 := lastVal (rollingQ 20 qmean closes)
    sma50 := lastVal (rollingQ 50 qmean closes)
    ema12 := ewmLast (spanAlpha 12) closes
    ema26 := ewmLast (spanAlpha 26) closes
    rsi := rsiLast closes 14
    macd := ⟨m.1, m.2.1, m.2.2⟩
    bbUpper := bb.1
    bbMiddle := bb.2.1
    bbLower := bb.2.2
    bbPosFlag := getBBPosition (closes.getLast?.getD 0) bb.1 bb.2.2
    stochastic := stochasticLast df 14
    williamsR := williamsRLast df 14
    volumeSma := volumeSma
    volumeQuotInd := volumeSma.map (fun s => vols.getLast?.getD 0 / s)
    cci := cciLast df 20
    roc := rocLast closes 12
    momentum := momentumLast closes 10
    atr := atrLast df 14
    volatility := volatilityLast closes 20
    adx := adxLast df 14
    aroon := aroonLast df 14
    obv := obvLast df
    mfi := mfiLast df 14
    vwap := vwapLast df
    pivotPoints := pivotPointsLast df
    fibLevels := fibonacciLast df
    fearGreed := fearGreedLast df
    bullBearPower := bullBearPowerLast df }

/-! ## Decision engine (`_make_ai_decision`)

Each voting rule of the source reads only the inputs (never the running
vote counters), so the sequential `+=` accumulation is the componentwise
sum of the per-rule contributions, written here in the source's
evaluation order.  A contribution `(a, b)` adds `a` bullish and `b`
bearish votes. -/

/-- Trading signal. -/
inductive Action
  | long
  | short
  | hold
  deriving DecidableEq, Repr

/-- The decision record (reason strings carry no further information and
are omitted). -/
structure AiDecision where
  action : Action
  confidence : ℚ
  bullishSignals : ℕ
  bearishSignals : ℕ
  signalStrength : ℕ
  deriving DecidableEq, Repr

/-- Componentwise vote sum. -/
def vadd (x y : ℕ × ℕ) : ℕ × ℕ := (x.1 + y.1, x.2 + y.2)

/-- RSI rule chain. -/
def ruleRsi (rsi : ℚ) : ℕ × ℕ :=
  if rsi < 30 then (2, 0)
  else if rsi > 70 then (0, 2)
  else if 30 ≤ rsi ∧ rsi ≤ 45 then (1, 0)
  else if 55 ≤ rsi ∧ rsi ≤ 70 then (0, 1)
  else (0, 0)

/-- MACD histogram rule: one vote on every invocation. -/
def ruleMacd (histogram : ℚ) : ℕ × ℕ :=
  if histogram > 0 then (1, 0) else (0, 1)

/-- Moving-average chain `price > SMA20 > SMA50` / `<`; a NaN average
fails every comparison. -/
def ruleMa (cp : ℚ) : Option ℚ → Option ℚ → ℕ × ℕ
  | some s20, some s50 =>
      if cp > s20 ∧ s20 > s50 then (2, 0)
      else if cp < s20 ∧ s20 < s50 then (0, 2)
      else (0, 0)
  | _, _ => (0, 0)

/-- `if distance_to_support and distance_to_support < 1` (Python
truthiness: `None` and `0.0` both fail). -/
def ruleSupport : Option ℚ → ℕ × ℕ
  | some d => if d ≠ 0 ∧ d < 1 then (2, 0) else (0, 0)
  | none => (0, 0)

/-- `if distance_to_resistance and distance_to_resistance < 1`. -/
def ruleResistance : Option ℚ → ℕ × ℕ
  | some d => if d ≠ 0 ∧ d < 1 then (0, 1) else (0, 0)
  | none => (0, 0)

/-- Market-structure rule. -/
def ruleStructure : StructureKind → ℕ × ℕ
  | .bullish => (1, 0)
  | .bearish => (0, 1)
  | .sideways => (0, 0)

/-- Volume bias/trend rule. -/
def ruleVolume (bias : VolBias) (trend : VolTrend) : ℕ × ℕ :=
  if bias = .bullish ∧ trend = .increasing then (1, 0)
  else if bias = .bearish ∧ trend = .increasing then (0, 1)
  else (0, 0)

/-- Upward-breakout rule (`ai_analysis.py` lines 313-315): fires on its
own, unconditionally on other rules. -/
def ruleBreakoutUp (breakout : Option Breakout) : ℕ × ℕ :=
  if breakout.map Breakout.direction = some .up then (1, 0) else (0, 0)

/-- CCI rule. -/
def ruleCci (cci : ℚ) : ℕ × ℕ :=
  if cci < -100 then (2, 0) else if cci > 100 then (0, 2) else (0, 0)

/-- ROC rule. -/
def ruleRoc (roc : ℚ) : ℕ × ℕ :=
  if roc > 5 then (1, 0) else if roc < -5 then (0, 1) else (0, 0)

/-- Volatility rule: `volatility > 0.3` decided exactly on the symbolic
`√`-value. -/
def ruleVolatility (vol : QSqrt) : ℕ × ℕ :=
  if vol.gtRat (3/10) then (0, 1) else (0, 0)

/-- ADX rule: above 25, vote with the side of `price > SMA20` (a NaN
SMA20 fails the comparison and lands on the bearish branch). -/
def ruleAdx (adx cp : ℚ) (sma20 : Option ℚ) : ℕ × ℕ :=
  if adx > 25 then
    match sma20 with
    | some s => if cp > s then (1, 0) else (0, 1)
    | none => (0, 1)
  else (0, 0)

/-- Aroon oscillator rule. -/
def ruleAroon (osc : ℚ) : ℕ × ℕ :=
  if osc > 50 then (1, 0) else if osc < -50 then (0, 1) else (0, 0)

/-- MFI rule. -/
def ruleMfi (mfi : ℚ) : ℕ × ℕ :=
  if mfi < 20 then (2, 0) else if mfi > 80 then (0, 2) else (0, 0)

/-- VWAP rule. -/
def ruleVwap (cp vwap : ℚ) : ℕ × ℕ :=
  if cp > vwap * (101/100) then (1, 0)
  else if cp < vwap * (99/100) then (0, 1)
  else (0, 0)

/-- Pivot-point rule (skipped when the pivot dict is empty). -/
def rulePivot (cp : ℚ) : Option PivotVal → ℕ × ℕ
  | some pp => if cp > pp.r1 then (1, 0) else if cp < pp.s1 then (0, 1) else (0, 0)
  | none => (0, 0)

/-- Fibonacci rule (skipped when the dict is empty; both branches vote
bullish in the source).  `abs(cp - fib)/cp < 0.005` never holds for a
zero `cp` under IEEE (±inf/NaN), hence the guard. -/
def ruleFib (cp : ℚ) : Option FibVal → ℕ × ℕ
  | some f =>
      if cp ≠ 0 ∧ |cp - f.f618| / cp < 1/200 then (1, 0)
      else if cp ≠ 0 ∧ |cp - f.f382| / cp < 1/200 then (1, 0)
      else (0, 0)
  | none => (0, 0)

/-- Fear/greed rule, decided exactly on the symbolic blend. -/
def ruleFearGreed (fg : QSqrt) : ℕ × ℕ :=
  if fg.ltRat 25 then (2, 0) else if fg.gtRat 75 then (0, 1) else (0, 0)

/-- Bull/bear power `if/elif` chain (`ai_analysis.py` lines 419-430).
Its final `elif` is the downward-breakout vote: it fires only when none
of the three power branches fired. -/
def rulePower (bb : BullBear) (breakout : Option Breakout) : ℕ × ℕ :=
  if bb.bull > 0 ∧ bb.bear > 0 then (2, 0)
  else if bb.bull > |bb.bear| then (1, 0)
  else if |bb.bear| > bb.bull then (0, 1)
  else if breakout.map Breakout.direction = some .down then (0, 1)
  else (0, 0)

/-- All vote contributions of `_make_ai_decision`, summed in source
order (no rule reads the accumulated counters, so the sum equals the
sequential accumulation).  Returns `(bullish_signals, bearish_signals)`. -/
def decisionVotes (ind : IndicatorSet) (sr : SupportResistance) (pat : Patterns)
    (ms : MarketStructure) (va : VolumeAnalysis) (cp : ℚ) : ℕ × ℕ :=
  vadd (ruleRsi ind.rsi) <|
  vadd (ruleMacd ind.macd.histogram) <|
  vadd (ruleMa cp ind.sma20 ind.sma50) <|
  vadd (ruleSupport sr.distanceToSupport) <|
  vadd (ruleResistance sr.distanceToResistance) <|
  vadd (ruleStructure ms.trendStructure) <|
  vadd (ruleVolume va.volumeBias va.volumeTrend) <|
  vadd (ruleBreakoutUp pat.breakoutPotential) <|
  vadd (ruleCci ind.cci) <|
  vadd (ruleRoc ind.roc) <|
  vadd (ruleVolatility ind.volatility) <|
  vadd (ruleAdx ind.adx cp ind.sma20) <|
  vadd (ruleAroon ind.aroon.osc) <|
  vadd (ruleMfi ind.mfi) <|
  vadd (ruleVwap cp ind.vwap) <|
  vadd (rulePivot cp ind.pivotPoints) <|
  vadd (ruleFib cp ind.fibLevels) <|
  vadd (ruleFearGreed ind.fearGreed)
       (rulePower ind.bullBearPower pat.breakoutPotential)

/-- The aggregation block of `_make_ai_decision` (lines 432-455):
`total = 0` yields HOLD with confidence 0 (and `signal_strength` is
reported as 0 by the guarded dict entry); otherwise the confidence is
`min(|bullish - bearish|/total·100, 95)` and the action follows the
`±1`-margin comparison. -/
def aggregate (bullish bearish : ℕ) : AiDecision :=
  if bullish + bearish = 0 then ⟨.hold, 0, bullish, bearish, 0⟩
  else
    let strength := ((bullish : ℤ) - (bearish : ℤ)).natAbs
    let confidence := min ((strength : ℚ) / ((bullish + bearish : ℕ) : ℚ) * 100) 95
    let action : Action :=
      if bullish > bearish + 1 then .long
      else if bearish > bullish + 1 then .short
      else .hold
    ⟨action, confidence, bullish, bearish, strength⟩

/-- `_make_ai_decision`. -/
def makeAiDecision (ind : IndicatorSet) (sr : SupportResistance) (pat : Patterns)
    (ms : MarketStructure) (va : VolumeAnalysis) (cp : ℚ) : AiDecision :=
  let v := decisionVotes ind sr pat ms va cp
  aggregate v.1 v.2

/-! ## Top-level analysis (`analyze_market`) -/

/-- The analysis report assembled by `analyze_market` (timestamp and
reason strings omitted; `confidenceScore` and `recommendation` are the
`dict.get` copies of the decision fields). -/
structure Analysis where
  currentPrice : ℚ
  indicators : IndicatorSet
  supportResistance : SupportResistance
  patterns : Patterns
  marketStructure : MarketStructure
  volumeAnalysis : VolumeAnalysis
  aiDecision : AiDecision
  confidenceScore : ℚ
  recommendation : Action
  deriving Repr

/-- `analyze_market`: fewer than 50 klines short-circuits to the
`"Insufficient data for analysis"` error dict; otherwise the full report
is assembled (the `except` clause never fires for ≥ 50 rows: all
remaining arithmetic is numpy/pandas-typed and total). -/
def analyzeMarket (klines : List Kline) (currentPrice : ℚ) : Except String Analysis :=
  if klines.length < 50 then .error "Insufficient data for analysis"
  else
    let df := klinesToDataframe klines
    let ind := calcAllIndicators df
    let sr := detectSupportResistance df
    let pat := detectPatterns df
    let ms := analyzeMarketStructure df
    let va := analyzeVolume df
    let dec := makeAiDecision ind sr pat ms va currentPrice
    .ok { currentPrice := currentPrice
          indicators := ind
          supportResistance := sr
          patterns := pat
          marketStructure := ms
          volumeAnalysis := va
          aiDecision := dec
          confidenceScore := dec.confidence
          recommendation := dec.action }

/-! ## Derived predicates and concrete inputs used by the theorems -/

/-- Modelled from the spec: `structure_score = (higher_highs +
higher_lows)/(2·(N−1))` — the spec's normalization of the market
structure score (the source divides by `N−1` instead). -/
def structureScoreSpec (hh hl n : ℕ) : ℚ := ((hh : ℚ) + hl) / (2 * ((n : ℚ) - 1))

/-- True iff one of the three bull/bear-power branches of the
`_make_ai_decision` chain fires, blocking the trailing downward-breakout
`elif`. -/
def powerChainFires (bb : BullBear) : Bool :=
  decide (bb.bull > 0 ∧ bb.bear > 0) || decide (bb.bull > |bb.bear|)
    || decide (|bb.bear| > bb.bull)

/-- A 10-candle price window with a single nonzero close. -/
def exPrices10 : List ℚ := [0, 0, 0, 0, 0, 0, 0, 0, 0, 1]

/-- 10 identical klines (too short for `analyze_market`). -/
def exKlines10 : List Kline := (List.range 10).map (fun i => ⟨i, 1, 1, 1, 1, 1⟩)

/-- 50 identical klines (the minimal accepted window). -/
def exKlines50 : List Kline := (List.range 50).map (fun i => ⟨i, 1, 1, 1, 1, 1⟩)

/-- 20 klines with strictly increasing highs and lows. -/
def exKlinesUp20 : List Kline :=
  (List.range 20).map (fun i => ⟨i, i, i, i, i, 1⟩)

/-- A high series with two local maxima 0.3% apart (100 and 100.3). -/
def exHighsW : List ℚ := [0, 0, 100, 0, 0, 0, 1003/10, 0, 0]

/-- An indicator set whose only voting rules are the MACD histogram
(bullish) and the bull/bear power chain (bearish, `|bear| > bull`). -/
def exIndBase : IndicatorSet :=
  { sma20 := none, sma50 := none, ema12 := 0, ema26 := 0, rsi := 50
    macd := ⟨0, 0, 1⟩, bbUpper := QSqrt.ofRat 0, bbMiddle := 0
    bbLower := QSqrt.ofRat 0, bbPosFlag := .withinBands
    stochastic := 50, williamsR := -50, volumeSma := none, volumeQuotInd := none
    cci := 0, roc := 0, momentum := 0, atr := 0, volatility := QSqrt.ofRat 0
    adx := 0, aroon := ⟨50, 50, 0⟩, obv := 0, mfi := 50, vwap := 100
    pivotPoints := none, fibLevels := none, fearGreed := QSqrt.ofRat 50
    bullBearPower := ⟨1, -2, -1⟩ }

/-- Support/resistance output with no levels. -/
def exSr : SupportResistance := ⟨[], [], none, none, none, none⟩

/-- A sideways market structure. -/
def exMs : MarketStructure := ⟨.sideways, 1/2, 1/2, 1/2⟩

/-- A non-voting volume analysis. -/
def exVa : VolumeAnalysis := ⟨.decreasing, .bearish, 0, 0, 0⟩

/-- Patterns with no breakout. -/
def exPatNone : Patterns := ⟨.sideways, [], none, none⟩

/-- Patterns with a downward breakout. -/
def exPatDown : Patterns := ⟨.sideways, [], some ⟨.down, 7/10⟩, none⟩

/-- A stream-client state whose only subscription is a kline channel. -/
def klineOnlyState : WSState := ⟨[("btcusdt@kline_1m", 0)], [], false, true⟩

/-- A stream-client state with one ticker and one trade channel. -/
def twoChanState : WSState :=
  ⟨[("btcusdt@ticker", 0), ("ethusdt@trade", 1)], [], false, true⟩

/-! ## Helper lemmas -/

theorem lastN_length_le (n : ℕ) (xs : List α) : (lastN n xs).length ≤ n := by
  simp only [lastN, List.length_drop]
  omega

theorem lastN_length_of_le (n : ℕ) (xs : List α) (h : n ≤ xs.length) :
    (lastN n xs).length = n := by
  simp only [lastN, List.length_drop]
  omega

theorem pollBatch_mem_gt :
    ∀ (batch : List ℤ) (l x : ℤ), x ∈ (pollBatch (some l) batch).1 → l < x := by
  intro batch
  induction batch with
  | nil => intro l x hx; simp [pollBatch] at hx
  | cons t ts ih =>
    intro l x hx
    by_cases h : l < t
    · simp only [pollBatch, if_pos h] at hx
      rcases List.mem_cons.mp hx with rfl | hx'
      · exact h
      · exact lt_trans h (ih t x hx')
    · simp only [pollBatch, if_neg h] at hx
      exact ih l x hx

theorem pollBatch_last_some :
    ∀ (batch : List ℤ) (l : ℤ), ∃ m, (pollBatch (some l) batch).2 = some m ∧ l ≤ m := by
  intro batch
  induction batch with
  | nil => intro l; exact ⟨l, rfl, le_refl l⟩
  | cons t ts ih =>
    intro l
    by_cases h : l < t
    · obtain ⟨m, hm, hle⟩ := ih t
      exact ⟨m, by simp only [pollBatch, if_pos h]; exact hm, le_of_lt (lt_of_lt_of_le h hle)⟩
    · obtain ⟨m, hm, hle⟩ := ih l
      exact ⟨m, by simp only [pollBatch, if_neg h]; exact hm, hle⟩

theorem pollBatch_mem_le_last :
    ∀ (batch : List ℤ) (last : Option ℤ) (x : ℤ), x ∈ (pollBatch last batch).1 →
      ∃ m, (pollBatch last batch).2 = some m ∧ x ≤ m := by
  intro batch
  induction batch with
  | nil => intro last x hx; simp [pollBatch] at hx
  | cons t ts ih =>
    intro last x hx
    match last with
    | none =>
      simp only [pollBatch] at hx ⊢
      rcases List.mem_cons.mp hx with rfl | hx'
      · exact pollBatch_last_some ts x
      · exact ih (some t) x hx'
    | some l =>
      by_cases h : l < t
      · simp only [pollBatch, if_pos h] at hx ⊢
        rcases List.mem_cons.mp hx with rfl | hx'
        · exact pollBatch_last_some ts x
        · exact ih (some t) x hx'
      · simp only [pollBatch, if_neg h] at hx ⊢
        exact ih (some l) x hx

theorem pollBatch_chain :
    ∀ (batch : List ℤ) (last : Option ℤ), List.Chain' (· < ·) (pollBatch last batch).1 := by
  intro batch
  induction batch with
  | nil => intro last; simp [pollBatch]
  | cons t ts ih =>
    intro last
    have hcons : List.Chain' (· < ·) (t :: (pollBatch (some t) ts).1) := by
      refine List.chain'_cons'.mpr ⟨?_, ih (some t)⟩
      intro y hy
      exact pollBatch_mem_gt ts t y (List.mem_of_mem_head? hy)
    match last with
    | none => simpa only [pollBatch] using hcons
    | some l =>
      by_cases h : l < t
      · simpa only [pollBatch, if_pos h] using hcons
      · simpa only [pollBatch, if_neg h] using ih (some l)

theorem pollRun_mem_gt :
    ∀ (polls : List (List ℤ)) (l x : ℤ), x ∈ pollRun (some l) polls → l < x := by
  intro polls
  induction polls with
  | nil => intro l x hx; simp [pollRun] at hx
  | cons b bs ih =>
    intro l x hx
    simp only [pollRun, List.mem_append] at hx
    rcases hx with hx | hx
    · exact pollBatch_mem_gt b l x hx
    · obtain ⟨m, hm, hle⟩ := pollBatch_last_some b l
      rw [hm] at hx
      exact lt_of_le_of_lt hle (ih m x hx)

theorem pollRun_chain :
    ∀ (polls : List (List ℤ)) (last : Option ℤ), List.Chain' (· < ·) (pollRun last polls) := by
  intro polls
  induction polls with
  | nil => intro last; simp [pollRun]
  | cons b bs ih =>
    intro last
    simp only [pollRun]
    rw [List.chain'_append]
    refine ⟨pollBatch_chain b last, ih _, ?_⟩
    intro x hx y hy
    obtain ⟨m, hm, hle⟩ :=
      pollBatch_mem_le_last b last x (List.mem_of_mem_getLast? hx)
    have hym : y ∈ pollRun (pollBatch last b).2 bs := List.mem_of_mem_head? hy
    rw [hm] at hym
    exact lt_of_le_of_lt hle (pollRun_mem_gt bs m y hym)

theorem pollBatch_first_ascending :
    ∀ (ts : List ℤ) (t : ℤ), List.Chain' (· < ·) (t :: ts) → (pollBatch (some t) ts).1 = ts := by
  intro ts
  induction ts with
  | nil => intro t _; rfl
  | cons u us ih =>
    intro t hch
    have h1 : t < u := (List.chain'_cons.mp hch).1
    have h2 : List.Chain' (· < ·) (u :: us) := (List.chain'_cons.mp hch).2
    simp only [pollBatch, if_pos h1]
    rw [ih u h2]

theorem dictInsert_keys_of_not_mem (m : List (String × β)) (k : String) (v : β)
    (hk : k ∉ m.map Prod.fst) :
    (dictInsert m k v).map Prod.fst = m.map Prod.fst ++ [k] := by
  induction m with
  | nil => rfl
  | cons p t ih =>
    obtain ⟨k', v'⟩ := p
    simp only [List.map_cons, List.mem_cons] at hk
    push_neg at hk
    simp only [dictInsert]
    rw [if_neg (fun he => hk.1 he.symm)]
    simp only [List.map_cons, ih hk.2, List.cons_append]

theorem startFallbackPolling_keys :
    ∀ (cbs : List (String × ℕ)) (tasks : List (String × PollKind)),
      (∀ k ∈ cbs.map Prod.fst,
        strContains "@ticker" k = true ∨ strContains "@trade" k = true) →
      (∀ k ∈ cbs.map Prod.fst, k ∉ tasks.map Prod.fst) →
      (cbs.map Prod.fst).Nodup →
      (startFallbackPolling tasks cbs).map Prod.fst
        = tasks.map Prod.fst ++ cbs.map Prod.fst := by
  intro cbs
  induction cbs with
  | nil => intro tasks _ _ _; simp [startFallbackPolling]
  | cons p rest ih =>
    intro tasks hcov hdisj hnd
    obtain ⟨name, hid⟩ := p
    have hname := hcov name (by simp)
    have hnotin : name ∉ tasks.map Prod.fst := hdisj name (by simp)
    have hnd2 : (name :: rest.map Prod.fst).Nodup := by simpa using hnd
    have hndc := List.nodup_cons.mp hnd2
    have hstep : ∀ kind, (dictInsert tasks name kind).map Prod.fst
        = tasks.map Prod.fst ++ [name] :=
      fun kind => dictInsert_keys_of_not_mem tasks name kind hnotin
    have hcov' : ∀ k ∈ rest.map Prod.fst,
        strContains "@ticker" k = true ∨ strContains "@trade" k = true :=
      fun k hk => hcov k (by simp [hk])
    have hdisj' : ∀ kind : PollKind, ∀ k ∈ rest.map Prod.fst,
        k ∉ (dictInsert tasks name kind).map Prod.fst := by
      intro kind k hk
      rw [hstep kind]
      simp only [List.mem_append, List.mem_singleton]
      push_neg
      exact ⟨hdisj k (by simp [hk]), fun he => hndc.1 (he ▸ hk)⟩
    by_cases hti : strContains "@ticker" name = true
    · simp only [startFallbackPolling, hti, if_true]
      rw [ih (dictInsert tasks name .ticker) hcov' (hdisj' .ticker) hndc.2, hstep .ticker]
      simp
    · have htr : strContains "@trade" name = true := hname.resolve_left hti
      have hti' : strContains "@ticker" name = false := by
        simpa using hti
      simp only [startFallbackPolling, hti', htr, Bool.false_eq_true, if_false, if_true]
      rw [ih (dictInsert tasks name .trade) hcov' (hdisj' .trade) hndc.2, hstep .trade]
      simp

/-! ## Claim theorems -/

/-- C6 counterexample: forcing the fallback transition with a single
registered kline channel starts no polling task at all, so N registered
channels do not yield N polling tasks. -/
theorem fallback_drops_kline_channel :
    (onTransportError klineOnlyState).pollingTasks = []
      ∧ klineOnlyState.callbacks.length = 1 := by
  constructor
  · decide
  · rfl

/-- C6 (amended): on a transport error during live streaming, the client
enters fallback mode, keeps every subscription, and starts one polling
task per registered *ticker or trade* channel — with N registered
channels all of those two kinds (and no polling tasks yet), exactly the
N channel keys get polling tasks, in registration order.  Kline/depth
channels get no polling task (see the counterexample). -/
theorem fallback_covers_ticker_trade :
    ∀ st : WSState, st.pollingTasks = [] →
      (∀ k ∈ st.callbacks.map Prod.fst,
        strContains "@ticker" k = true ∨ strContains "@trade" k = true) →
      (st.callbacks.map Prod.fst).Nodup →
      (onTransportError st).pollingTasks.map Prod.fst = st.callbacks.map Prod.fst
        ∧ (onTransportError st).callbacks = st.callbacks
        ∧ (onTransportError st).fallbackMode = true := by
  intro st hemp hcov hnd
  refine ⟨?_, rfl, rfl⟩
  show (startFallbackPolling st.pollingTasks st.callbacks).map Prod.fst = _
  rw [hemp]
  simpa using startFallbackPolling_keys st.callbacks [] hcov (by simp) hnd

/-- C6 witness: a concrete two-channel state is fully covered. -/
theorem fallback_covers_ticker_trade_witness :
    (onTransportError twoChanState).pollingTasks.map Prod.fst
      = twoChanState.callbacks.map Prod.fst :=
  (fallback_covers_ticker_trade twoChanState rfl (by decide) (by decide)).1

/-- C7 counterexample: on the very first poll the fetched batch `[5, 3]`
does *not* emit all fetched trades — id 3 is dropped because the running
maximum is already 5 — refuting the unconditional "first poll emits all
fetched trades" reading. -/
theorem poll_first_batch_unordered_drop : pollRun none [[5, 3]] = [5] := by decide

/-- C7 (amended): the trade-polling loop tracks the highest emitted id
and emits only strictly greater ids (so the emitted stream is strictly
increasing and duplicate-free); on the very first poll all fetched
trades are emitted provided the batch arrives in ascending id order; and
for the fixed batches `[5,6]`, `[6,7]` the handler fires for 5, 6, 7
exactly once each. -/
theorem poll_trades_dedup :
    (∀ (last : Option ℤ) (polls : List (List ℤ)),
        List.Chain' (· < ·) (pollRun last polls))
    ∧ (∀ batch : List ℤ, List.Chain' (· < ·) batch → (pollBatch none batch).1 = batch)
    ∧ (∀ (l : ℤ) (batch : List ℤ) (x : ℤ), x ∈ (pollBatch (some l) batch).1 → l < x)
    ∧ pollRun none [[5, 6], [6, 7]] = [5, 6, 7] := by
  refine ⟨fun last polls => pollRun_chain polls last, ?_,
    fun l batch => pollBatch_mem_gt batch l, by decide⟩
  intro batch hch
  match batch with
  | [] => rfl
  | t :: ts =>
    simp only [pollBatch]
    rw [pollBatch_first_ascending ts t hch]

/-- C7 witness: concrete instances of the hypotheses of
`poll_trades_dedup`. -/
theorem poll_trades_dedup_witness :
    (pollBatch none [(5 : ℤ), 6]).1 = [5, 6] ∧ (5 : ℤ) < 7 :=
  ⟨poll_trades_dedup.2.1 [5, 6]
      (by norm_num [List.chain'_cons, List.chain'_singleton]),
   poll_trades_dedup.2.2.1 5 [6, 7] 7 (by decide)⟩

set_option maxRecDepth 4000 in
/-- C8: the analysis history is a bounded FIFO — an insert never grows
it past 100 entries and always leaves the newest entry at the back;
after 101 inserts into an empty history the first entry is evicted and
the last is present; and the accessor returns exactly the most recent 20
entries (a suffix of the history). -/
theorem history_bounded_fifo :
    (∀ (h : List ℤ) (x : ℤ), h.length ≤ 100 →
        (pushHistory h x).length ≤ 100 ∧ (pushHistory h x).getLast? = some x)
    ∧ ((List.range 101).foldl pushHistory ([] : List ℕ)).length = 100
    ∧ 0 ∉ (List.range 101).foldl pushHistory ([] : List ℕ)
    ∧ 100 ∈ (List.range 101).foldl pushHistory ([] : List ℕ)
    ∧ ∀ h : List ℤ, (getAnalysisHistory h).length = min 20 h.length
        ∧ getAnalysisHistory h <:+ h := by
  refine ⟨?_, by decide, by decide, by decide, ?_⟩
  · intro h x hlen
    constructor
    · simp only [pushHistory]
      split
      · simp only [List.length_drop, List.length_append, List.length_singleton]
        omega
      · next hc =>
        simp only [List.length_append, List.length_singleton] at hc ⊢
        omega
    · simp only [pushHistory]
      split
      · next hc =>
        have hh : (1 : ℕ) ≤ h.length := by
          simp only [List.length_append, List.length_singleton] at hc
          omega
        rw [List.drop_append_of_le_length hh, List.getLast?_concat]
      · exact List.getLast?_concat _
  · intro h
    refine ⟨?_, List.drop_suffix _ _⟩
    simp only [getAnalysisHistory, lastN, List.length_drop]
    omega

/-- C8 witness: a concrete instance of the bounded-insert property. -/
theorem history_bounded_fifo_witness :
    (pushHistory ([] : List ℤ) 7).length ≤ 100
      ∧ (pushHistory ([] : List ℤ) 7).getLast? = some 7 :=
  history_bounded_fifo.1 [] 7 (by decide)

/-- C3: the decision is the aggregation of the vote counts, and for every
vote combination: zero total yields HOLD with confidence 0; a nonzero
total yields `confidence = min(|bullish - bearish|/total·100, 95)`; the
action is LONG iff `bullish > bearish + 1`, SHORT iff
`bearish > bullish + 1`, HOLD otherwise; and the confidence always lies
in `[0, 95]`. -/
theorem aggregate_confidence_spec :
    (∀ ind sr pat ms va cp, makeAiDecision ind sr pat ms va cp
        = aggregate (decisionVotes ind sr pat ms va cp).1
            (decisionVotes ind sr pat ms va cp).2)
    ∧ ∀ b s : ℕ,
        (b + s = 0 → (aggregate b s).action = .hold ∧ (aggregate b s).confidence = 0)
        ∧ (b + s ≠ 0 → (aggregate b s).confidence
            = min ((((b : ℤ) - (s : ℤ)).natAbs : ℚ) / ((b + s : ℕ) : ℚ) * 100) 95)
        ∧ ((aggregate b s).action = .long ↔ b > s + 1)
        ∧ ((aggregate b s).action = .short ↔ s > b + 1)
        ∧ ((aggregate b s).action = .hold ↔ ¬(b > s + 1) ∧ ¬(s > b + 1))
        ∧ 0 ≤ (aggregate b s).confidence
        ∧ (aggregate b s).confidence ≤ 95 := by
  refine ⟨fun _ _ _ _ _ _ => rfl, ?_⟩
  intro b s
  by_cases h0 : b + s = 0
  · have hb : b = 0 := by omega
    have hs : s = 0 := by omega
    subst hb hs
    refine ⟨fun _ => ⟨rfl, rfl⟩, fun hc => absurd rfl hc, ?_, ?_, ?_, by norm_num [aggregate], by norm_num [aggregate]⟩
    all_goals simp [aggregate]
  · have hexp : aggregate b s =
        ⟨if b > s + 1 then .long else if s > b + 1 then .short else .hold,
         min ((((b : ℤ) - (s : ℤ)).natAbs : ℚ) / ((b + s : ℕ) : ℚ) * 100) 95,
         b, s, ((b : ℤ) - (s : ℤ)).natAbs⟩ := by
      simp [aggregate, h0]
    rw [hexp]
    have hconf0 : (0 : ℚ) ≤ (((b : ℤ) - (s : ℤ)).natAbs : ℚ) / ((b + s : ℕ) : ℚ) * 100 := by
      positivity
    refine ⟨fun hc => absurd hc h0, fun _ => rfl, ?_, ?_, ?_,
      le_min hconf0 (by norm_num), min_le_right _ _⟩
    · split_ifs with h1 h2 <;> simp_all
    · split_ifs with h1 h2 <;> simp_all <;> omega
    · split_ifs with h1 h2 <;> simp_all <;> omega

/-- C3 witness: concrete instances of both aggregation branches. -/
theorem aggregate_confidence_spec_witness :
    ((aggregate 0 0).action = .hold ∧ (aggregate 0 0).confidence = 0)
    ∧ (aggregate 3 0).confidence
        = min ((((3 : ℤ) - (0 : ℤ)).natAbs : ℚ) / ((3 + 0 : ℕ) : ℚ) * 100) 95 :=
  ⟨(aggregate_confidence_spec.2 0 0).1 rfl,
   (aggregate_confidence_spec.2 3 0).2.1 (by decide)⟩

/-- C9: the MACD-histogram rule contributes exactly one vote on every
invocation, so every decision has `bullish + bearish ≥ 1` and the
`total = 0` aggregation branch is unreachable from the decision
operation. -/
theorem decision_total_positive :
    (∀ hist : ℚ, (ruleMacd hist).1 + (ruleMacd hist).2 = 1)
    ∧ ∀ ind sr pat ms va cp,
        1 ≤ (makeAiDecision ind sr pat ms va cp).bullishSignals
            + (makeAiDecision ind sr pat ms va cp).bearishSignals := by
  have hm : ∀ hist : ℚ, (ruleMacd hist).1 + (ruleMacd hist).2 = 1 := by
    intro hist
    unfold ruleMacd
    split <;> rfl
  refine ⟨hm, ?_⟩
  intro ind sr pat ms va cp
  have hag : ∀ b s : ℕ,
      (aggregate b s).bullishSignals = b ∧ (aggregate b s).bearishSignals = s := by
    intro b s
    unfold aggregate
    split <;> exact ⟨rfl, rfl⟩
  have hd : makeAiDecision ind sr pat ms va cp
      = aggregate (decisionVotes ind sr pat ms va cp).1
          (decisionVotes ind sr pat ms va cp).2 := rfl
  rw [hd, (hag _ _).1, (hag _ _).2]
  have hv : ∀ x y : ℕ × ℕ, (vadd x y).1 + (vadd x y).2 = (x.1 + x.2) + (y.1 + y.2) := by
    intro x y
    simp only [vadd]
    omega
  unfold decisionVotes
  rw [hv, hv]
  have := hm ind.macd.histogram
  omega

unseal Rat.add Rat.mul Rat.inv Rat.sub in
/-- C5 counterexample: with `bull_power = 1`, `bear_power = -2` the
bearish power branch fires, and adding a DOWN breakout to the otherwise
identical input leaves the vote tally unchanged at `(1, 1)` — the DOWN
breakout vote is not an independent rule. -/
theorem breakout_down_vote_unchanged :
    decisionVotes exIndBase exSr exPatDown exMs exVa 100
      = decisionVotes exIndBase exSr exPatNone exMs exVa 100
    ∧ decisionVotes exIndBase exSr exPatDown exMs exVa 100 = (1, 1) := by
  constructor <;> decide

/-- C5 (amended): an UP breakout adds one bullish vote unconditionally,
but a DOWN breakout adds one bearish vote only when none of the three
bull/bear-power branches fires (it is the final `elif` of that chain);
no other rule reads the breakout direction. -/
theorem breakout_votes_conditional :
    ∀ ind sr (pat : Patterns) ms va cp (p : ℚ),
      decisionVotes ind sr { pat with breakoutPotential := some ⟨.up, p⟩ } ms va cp
        = vadd (decisionVotes ind sr { pat with breakoutPotential := none } ms va cp) (1, 0)
      ∧ decisionVotes ind sr { pat with breakoutPotential := some ⟨.down, p⟩ } ms va cp
        = (if powerChainFires ind.bullBearPower
           then decisionVotes ind sr { pat with breakoutPotential := none } ms va cp
           else vadd (decisionVotes ind sr
                  { pat with breakoutPotential := none } ms va cp) (0, 1)) := by
  intro ind sr pat ms va cp p
  have hupU : ruleBreakoutUp (some ⟨.up, p⟩) = (1, 0) := by
    simp [ruleBreakoutUp]
  have hupN : ruleBreakoutUp (none : Option Breakout) = (0, 0) := by
    simp [ruleBreakoutUp]
  have hupD : ruleBreakoutUp (some ⟨.down, p⟩) = (0, 0) := by
    simp [ruleBreakoutUp]
  have hpowU : rulePower ind.bullBearPower (some ⟨.up, p⟩)
      = rulePower ind.bullBearPower none := by
    simp [rulePower]
  have hpowD : rulePower ind.bullBearPower (some ⟨.down, p⟩)
      = (if powerChainFires ind.bullBearPower
         then rulePower ind.bullBearPower none else (0, 1)) := by
    by_cases h1 : ind.bullBearPower.bull > 0 ∧ ind.bullBearPower.bear > 0
    · simp [rulePower, powerChainFires, h1]
    · by_cases h2 : ind.bullBearPower.bull > |ind.bullBearPower.bear|
      · simp [rulePower, powerChainFires, h1, h2]
      · by_cases h3 : |ind.bullBearPower.bear| > ind.bullBearPower.bull
        · simp [rulePower, powerChainFires, h1, h2, h3]
        · simp [rulePower, powerChainFires, h1, h2, h3]
  constructor
  · simp only [decisionVotes, hupU, hupN, hpowU, vadd, Prod.mk.injEq]
    omega
  · by_cases hf : powerChainFires ind.bullBearPower = true
    · simp only [decisionVotes, hupD, hupN, hpowD, hf, if_true, vadd, Prod.mk.injEq]
    · have hf' : powerChainFires ind.bullBearPower = false := by simpa using hf
      have hpowN : rulePower ind.bullBearPower none = (0, 0) := by
        simp only [powerChainFires, Bool.or_eq_false_iff,
          decide_eq_false_iff_not] at hf'
        simp [rulePower, hf'.1.1, hf'.1.2, hf'.2]
      have hf'' : powerChainFires ind.bullBearPower = false := by simpa using hf
      simp only [decisionVotes, hupD, hupN, hpowD, hf'', Bool.false_eq_true, if_false,
        hpowN, vadd, Prod.mk.injEq]
      omega

unseal Rat.add Rat.mul Rat.inv Rat.sub in
/-- C2 counterexample: a 10-candle window does not yield MACD 0/0/0 —
the expanding EWMs are defined on any nonempty window, so the
`pd.isna` fallbacks never fire and the computed triple is nonzero. -/
theorem macd_short_window_nonzero : macdLast exPrices10 ≠ (0, 0, 0) := by decide

theorem length_rsiGains (prices : List ℚ) : (rsiGains prices).length = prices.length := by
  cases prices with
  | nil => rfl
  | cons p tl =>
    simp only [rsiGains, List.length_cons, List.length_zipWith]
    omega

theorem length_rsiLosses (prices : List ℚ) : (rsiLosses prices).length = prices.length := by
  cases prices with
  | nil => rfl
  | cons p tl =>
    simp only [rsiLosses, List.length_cons, List.length_zipWith]
    omega

theorem lastVal_rollingMap_of_short (w : ℕ) (f : List ℚ → ℚ) (s : SeriesQ)
    (h : s.length < w) : lastVal (rollingMap w f s) = none := by
  unfold lastVal rollingMap
  rcases hn : s.length with _ | n
  · simp
  · rw [List.range_succ, List.map_append]
    simp only [List.map_cons, List.map_nil, List.getLast?_concat]
    have hw : ¬ (w ≤ n + 1) := by omega
    simp [hw]

/-- C2 (amended): every window strictly shorter than the 14-candle RSI
rolling period yields the neutral default RSI = 50 (so a 10-candle
window gives RSI = 50); the MACD, computed through expanding EWMs,
produces its formula value on any nonempty window and its 0/0/0
fallback never fires there (see the counterexample for a nonzero
10-candle MACD). -/
theorem rsi_neutral_default_short_window :
    ∀ prices : List ℚ, prices.length < 14 → rsiLast prices 14 = 50 := by
  intro prices h
  have hg : lastVal (rollingQ 14 qmean (rsiGains prices)) = none := by
    show lastVal (rollingMap 14 qmean ((rsiGains prices).map some)) = none
    apply lastVal_rollingMap_of_short
    simpa [length_rsiGains] using h
  have hl : lastVal (rollingQ 14 qmean (rsiLosses prices)) = none := by
    show lastVal (rollingMap 14 qmean ((rsiLosses prices).map some)) = none
    apply lastVal_rollingMap_of_short
    simpa [length_rsiLosses] using h
  unfold rsiLast
  rw [hg, hl]

/-- C2 witness: the 10-candle window yields RSI = 50. -/
theorem rsi_neutral_default_short_window_witness : rsiLast exPrices10 14 = 50 :=
  rsi_neutral_default_short_window exPrices10 (by decide)

theorem structure_class_iff (score : ℚ) :
    ((if score > 3/5 then StructureKind.bullish
      else if score < 2/5 then StructureKind.bearish
      else StructureKind.sideways) = StructureKind.bullish ↔ 3/5 < score)
    ∧ ((if score > 3/5 then StructureKind.bullish
        else if score < 2/5 then StructureKind.bearish
        else StructureKind.sideways) = StructureKind.bearish ↔ score < 2/5)
    ∧ ((if score > 3/5 then StructureKind.bullish
        else if score < 2/5 then StructureKind.bearish
        else StructureKind.sideways) = StructureKind.sideways
          ↔ 2/5 ≤ score ∧ score ≤ 3/5) := by
  by_cases h1 : score > 3/5
  · rw [if_pos h1]
    refine ⟨by simp [h1], ?_, ?_⟩
    · constructor
      · intro hc; exact absurd hc (by decide)
      · intro hc; linarith
    · constructor
      · intro hc; exact absurd hc (by decide)
      · intro hc; linarith [hc.2]
  · rw [if_neg h1]
    by_cases h2 : score < 2/5
    · rw [if_pos h2]
      refine ⟨?_, by simp [h2], ?_⟩
      · constructor
        · intro hc; exact absurd hc (by decide)
        · intro hc; linarith
      · constructor
        · intro hc; exact absurd hc (by decide)
        · intro hc; linarith [hc.1]
    · rw [if_neg h2]
      refine ⟨?_, ?_, ?_⟩
      · constructor
        · intro hc; exact absurd hc (by decide)
        · intro hc; exact absurd hc h1
      · constructor
        · intro hc; exact absurd hc (by decide)
        · intro hc; exact absurd hc h2
      · constructor
        · intro _; exact ⟨by linarith, by linarith⟩
        · intro _; rfl

unseal Rat.add Rat.mul Rat.inv Rat.sub in
/-- C4 counterexample: on 20 candles with strictly increasing highs and
lows the source computes `structure_score = (19 + 19)/19 = 2`, while the
claimed formula `(higher_highs + higher_lows)/(2·(N−1))` gives 1. -/
theorem structure_score_counterexample :
    (analyzeMarketStructure exKlinesUp20).structureScore = 2
      ∧ structureScoreSpec 19 19 20 = 1
      ∧ countIncr (lastN 20 (exKlinesUp20.map (·.h))) = 19
      ∧ countIncr (lastN 20 (exKlinesUp20.map (·.l))) = 19 := by
  exact ⟨by decide, by decide, by decide, by decide⟩

/-- C4 (amended): for every window of at least 20 candles the
market-structure analysis counts strictly increasing consecutive highs
and lows over the last 20 candles, computes
`structure_score = (higher_highs + higher_lows)/(N−1)` with `N = 20`
(divisor 19, not `2·(N−1)`), and classifies BULLISH above 0.6, BEARISH
below 0.4, SIDEWAYS otherwise. -/
theorem market_structure_spec :
    ∀ df : List Kline, 20 ≤ df.length →
      (analyzeMarketStructure df).structureScore
          = ((countIncr (lastN 20 (df.map (·.h))) : ℚ)
              + (countIncr (lastN 20 (df.map (·.l))) : ℚ)) / 19
        ∧ ((analyzeMarketStructure df).trendStructure = .bullish
            ↔ 3/5 < (analyzeMarketStructure df).structureScore)
        ∧ ((analyzeMarketStructure df).trendStructure = .bearish
            ↔ (analyzeMarketStructure df).structureScore < 2/5)
        ∧ ((analyzeMarketStructure df).trendStructure = .sideways
            ↔ 2/5 ≤ (analyzeMarketStructure df).structureScore
              ∧ (analyzeMarketStructure df).structureScore ≤ 3/5) := by
  intro df hlen
  have hh20 : (lastN 20 (df.map (·.h))).length = 20 :=
    lastN_length_of_le _ _ (by simpa using hlen)
  have hscore : (analyzeMarketStructure df).structureScore
      = ((countIncr (lastN 20 (df.map (·.h))) : ℚ)
          + (countIncr (lastN 20 (df.map (·.l))) : ℚ)) / 19 := by
    simp only [analyzeMarketStructure, hh20]
    norm_num
  have hts : (analyzeMarketStructure df).trendStructure
      = (if (analyzeMarketStructure df).structureScore > 3/5 then StructureKind.bullish
         else if (analyzeMarketStructure df).structureScore < 2/5 then StructureKind.bearish
         else StructureKind.sideways) := rfl
  obtain ⟨hb, hbe, hsw⟩ := structure_class_iff ((analyzeMarketStructure df).structureScore)
  rw [hts]
  exact ⟨hscore, hb, hbe, hsw⟩

unseal Rat.add Rat.mul Rat.inv Rat.sub in
/-- C4 witness: the amended score formula at the concrete 20-candle
window. -/
theorem market_structure_spec_witness :
    (analyzeMarketStructure exKlinesUp20).structureScore
      = ((countIncr (lastN 20 (exKlinesUp20.map (·.h))) : ℚ)
          + (countIncr (lastN 20 (exKlinesUp20.map (·.l))) : ℚ)) / 19 :=
  (market_structure_spec exKlinesUp20 (by decide)).1

/-- C1 counterexample: a 10-candle window makes `analyze_market` return
the `"Insufficient data for analysis"` error dict rather than a complete
analysis — insufficient data *is* surfaced as a failed analysis cycle
below 50 candles. -/
theorem analyze_market_short_window_error :
    analyzeMarket exKlines10 1 = .error "Insufficient data for analysis" := rfl

/-- C1 (amended): for every window of at least 50 candles and every
current price, `analyze_market` returns a complete analysis (indicator
set, support/resistance, patterns, structure, volume and decision) and
never an error — every indicator absorbs locally-insufficient data via
its neutral default; for windows below 50 candles it returns the
insufficient-data error instead. -/
theorem analyze_market_totality :
    ∀ (klines : List Kline) (cp : ℚ),
      (50 ≤ klines.length → ∃ a : Analysis, analyzeMarket klines cp = .ok a)
      ∧ (klines.length < 50 →
          analyzeMarket klines cp = .error "Insufficient data for analysis") := by
  intro klines cp
  constructor
  · intro h
    have hne : ¬ (klines.length < 50) := by omega
    rcases he : analyzeMarket klines cp with err | a
    · exfalso
      unfold analyzeMarket at he
      rw [if_neg hne] at he
      simp at he
    · exact ⟨a, rfl⟩
  · intro h
    unfold analyzeMarket
    rw [if_pos h]

/-- C1 witness: a 50-candle window yields a complete analysis. -/
theorem analyze_market_totality_witness :
    ∃ a : Analysis, analyzeMarket exKlines50 1 = .ok a :=
  (analyze_market_totality exKlines50 1).1 (by decide)

theorem greedyFilterGo_cons (kept : List ℚ) (x : ℚ) (xs : List ℚ) :
    greedyFilterGo kept (x :: xs)
      = if (kept.any fun e => closeLevel x e) = true
        then greedyFilterGo kept xs
        else greedyFilterGo (kept ++ [x]) xs := rfl

theorem greedyFilterGo_keeps_kept :
    ∀ (cands kept : List ℚ), kept <+: greedyFilterGo kept cands := by
  intro cands
  induction cands with
  | nil => intro kept; exact List.prefix_refl _
  | cons x xs ih =>
    intro kept
    rw [greedyFilterGo_cons]
    split
    · exact ih kept
    · exact (List.prefix_append kept [x]).trans (ih (kept ++ [x]))

theorem greedyFilterGo_sublist :
    ∀ (cands kept : List ℚ), List.Sublist (greedyFilterGo kept cands) (kept ++ cands) := by
  intro cands
  induction cands with
  | nil =>
    intro kept
    have hk : greedyFilterGo kept [] = kept := rfl
    rw [hk, List.append_nil]
  | cons x xs ih =>
    intro kept
    rw [greedyFilterGo_cons]
    split
    · refine (ih kept).trans (List.Sublist.append_left ?_ kept)
      exact List.sublist_cons_self x xs
    · have := ih (kept ++ [x])
      simpa [List.append_assoc] using this

theorem greedyFilterGo_pairwise :
    ∀ (cands kept : List ℚ),
      List.Pairwise (fun a b => closeLevel b a = false) kept →
      List.Pairwise (fun a b => closeLevel b a = false) (greedyFilterGo kept cands) := by
  intro cands
  induction cands with
  | nil => intro kept h; exact h
  | cons x xs ih =>
    intro kept h
    rw [greedyFilterGo_cons]
    split
    · exact ih kept h
    · next hany =>
      refine ih (kept ++ [x]) ?_
      rw [List.pairwise_append]
      refine ⟨h, List.pairwise_singleton _ _, ?_⟩
      intro a ha b hb
      rw [List.mem_singleton] at hb
      rw [hb]
      have hfalse : (kept.any fun e => closeLevel x e) = false := by
        rw [← Bool.not_eq_true]
        exact hany
      simpa using List.any_eq_false.mp hfalse a ha

theorem greedyFilterGo_mem_drop :
    ∀ (cands kept : List ℚ) (c : ℚ), c ∈ cands → c ∉ greedyFilterGo kept cands →
      ∃ e ∈ greedyFilterGo kept cands, closeLevel c e = true := by
  intro cands
  induction cands with
  | nil => intro kept c hc _; simp at hc
  | cons x xs ih =>
    intro kept c hc hnot
    rcases List.mem_cons.mp hc with rfl | hc'
    · by_cases hany : (kept.any fun e => closeLevel c e) = true
      · have heq : greedyFilterGo kept (c :: xs) = greedyFilterGo kept xs := by
          rw [greedyFilterGo_cons, if_pos hany]
        obtain ⟨e, he, hce⟩ := List.any_eq_true.mp hany
        rw [heq]
        exact ⟨e, (greedyFilterGo_keeps_kept xs kept).subset he, by simpa using hce⟩
      · have heq : greedyFilterGo kept (c :: xs) = greedyFilterGo (kept ++ [c]) xs := by
          rw [greedyFilterGo_cons, if_neg hany]
        exfalso
        apply hnot
        rw [heq]
        exact (greedyFilterGo_keeps_kept xs (kept ++ [c])).subset (by simp)
    · by_cases hany : (kept.any fun e => closeLevel x e) = true
      · have heq : greedyFilterGo kept (x :: xs) = greedyFilterGo kept xs := by
          rw [greedyFilterGo_cons, if_pos hany]
        rw [heq] at hnot ⊢
        exact ih kept c hc' hnot
      · have heq : greedyFilterGo kept (x :: xs) = greedyFilterGo (kept ++ [x]) xs := by
          rw [greedyFilterGo_cons, if_neg hany]
        rw [heq] at hnot ⊢
        exact ih (kept ++ [x]) c hc' hnot

theorem greedyFilter_head (x : ℚ) (xs : List ℚ) :
    (greedyFilter (x :: xs)).head? = some x := by
  have heq : greedyFilter (x :: xs) = greedyFilterGo [x] xs := by
    unfold greedyFilter
    rw [greedyFilterGo_cons]
    simp
  rw [heq]
  obtain ⟨t, ht⟩ := greedyFilterGo_keeps_kept xs [x]
  rw [← ht]
  rfl

theorem greedyFilter_sublist_input (cands : List ℚ) :
    List.Sublist (greedyFilter cands) cands := by
  simpa using greedyFilterGo_sublist cands []

theorem sortedSet_nodup (xs : List ℚ) : (sortedSet xs).Nodup :=
  ((List.perm_insertionSort _ _).nodup_iff).mpr (List.nodup_dedup xs)

theorem levels_output_spec (cands : List ℚ) (hnd : cands.Nodup) :
    (lastN 5 ((greedyFilter cands).insertionSort (· ≤ ·))).length ≤ 5
    ∧ List.Sorted (· < ·) (lastN 5 ((greedyFilter cands).insertionSort (· ≤ ·)))
    ∧ ∀ x ∈ lastN 5 ((greedyFilter cands).insertionSort (· ≤ ·)),
        x ∈ greedyFilter cands := by
  have hsub : List.Sublist (greedyFilter cands) cands := greedyFilter_sublist_input cands
  have hnd' : (greedyFilter cands).Nodup := hnd.sublist hsub
  have hperm := List.perm_insertionSort (· ≤ · : ℚ → ℚ → Prop) (greedyFilter cands)
  have hndS : ((greedyFilter cands).insertionSort (· ≤ ·)).Nodup :=
    (hperm.nodup_iff).mpr hnd'
  have hsorted : List.Sorted (· ≤ ·) ((greedyFilter cands).insertionSort (· ≤ ·)) :=
    List.sorted_insertionSort _ _
  have hstrict : List.Sorted (· < ·) ((greedyFilter cands).insertionSort (· ≤ ·)) := by
    have hp := List.Pairwise.and hsorted hndS
    exact hp.imp (fun hab => lt_of_le_of_ne hab.1 hab.2)
  refine ⟨lastN_length_le _ _, ?_, ?_⟩
  · exact List.Pairwise.sublist (List.drop_sublist _ _) hstrict
  · intro x hx
    have hx' : x ∈ (greedyFilter cands).insertionSort (· ≤ ·) :=
      (List.drop_sublist _ _).subset hx
    exact (hperm.mem_iff).mp hx'

/-- C10: both level finders return at most 5 levels in strictly
ascending order, every returned level survived the proximity filter, a
candidate missing from the filter's output is always within 0.5% of an
already-kept level, no kept level is within 0.5% of an earlier kept one,
and the first candidate found is always kept. -/
theorem find_levels_spec :
    ∀ highs lows closes : List ℚ,
      ((findResistanceLevels highs closes).length ≤ 5
        ∧ List.Sorted (· < ·) (findResistanceLevels highs closes)
        ∧ (∀ x ∈ findResistanceLevels highs closes,
            x ∈ greedyFilter (sortedSet (localMaxima highs)))
        ∧ (∀ c ∈ sortedSet (localMaxima highs),
            c ∉ greedyFilter (sortedSet (localMaxima highs)) →
            ∃ e ∈ greedyFilter (sortedSet (localMaxima highs)), closeLevel c e = true)
        ∧ List.Pairwise (fun a b => closeLevel b a = false)
            (greedyFilter (sortedSet (localMaxima highs)))
        ∧ (∀ c cs, sortedSet (localMaxima highs) = c :: cs →
            (greedyFilter (sortedSet (localMaxima highs))).head? = some c))
      ∧ ((findSupportLevels lows closes).length ≤ 5
        ∧ List.Sorted (· < ·) (findSupportLevels lows closes)
        ∧ (∀ x ∈ findSupportLevels lows closes,
            x ∈ greedyFilter (sortedSet (localMinima lows)))
        ∧ (∀ c ∈ sortedSet (localMinima lows),
            c ∉ greedyFilter (sortedSet (localMinima lows)) →
            ∃ e ∈ greedyFilter (sortedSet (localMinima lows)), closeLevel c e = true)
        ∧ List.Pairwise (fun a b => closeLevel b a = false)
            (greedyFilter (sortedSet (localMinima lows)))
        ∧ (∀ c cs, sortedSet (localMinima lows) = c :: cs →
            (greedyFilter (sortedSet (localMinima lows))).head? = some c)) := by
  intro highs lows closes
  constructor
  · obtain ⟨h1, h2, h3⟩ := levels_output_spec (sortedSet (localMaxima highs))
      (sortedSet_nodup _)
    refine ⟨h1, h2, h3, ?_, greedyFilterGo_pairwise _ [] (List.Pairwise.nil), ?_⟩
    · intro c hc hnot
      exact greedyFilterGo_mem_drop _ [] c hc hnot
    · intro c cs hcs
      rw [hcs]
      exact greedyFilter_head c cs
  · obtain ⟨h1, h2, h3⟩ := levels_output_spec (sortedSet (localMinima lows))
      (sortedSet_nodup _)
    refine ⟨h1, h2, h3, ?_, greedyFilterGo_pairwise _ [] (List.Pairwise.nil), ?_⟩
    · intro c hc hnot
      exact greedyFilterGo_mem_drop _ [] c hc hnot
    · intro c cs hcs
      rw [hcs]
      exact greedyFilter_head c cs

unseal Rat.add Rat.mul Rat.inv Rat.sub in
/-- C10 witness: on the concrete high series the candidate 100.3 is
within 0.5% of the kept level 100 and is dropped. -/
theorem find_levels_spec_witness :
    ∃ e ∈ greedyFilter (sortedSet (localMaxima exHighsW)),
      closeLevel (1003/10) e = true :=
  (find_levels_spec exHighsW [] []).1.2.2.2.1 (1003/10) (by decide) (by decide)

end Trejder
